/-
Verification of the matroska-subtitles semantic layer: a shallow embedding
of the track registry, timecode context, cue synthesizer, attachment
extractor and stream resynchronizer, with theorems checking the natural
language specification against the code.

Conventions of the embedding:
* JS numbers are embedded as rationals (`ℚ`); `Math.floor` is `Int.floor`,
  the JS `%` operator (truncated remainder) is `jsRem`.
* JS strings are Lean `String`s; the external UTF-8 decode of a Node
  `Buffer` is applied upstream, so block payloads and codec-private data
  arrive as strings (the byte → string decode is an external collaborator).
* The zlib inflate primitive is an external collaborator and is passed in
  as an explicit parameter `f : String → String` wherever the code calls
  `inflateSync`.
* A JS value that may be `undefined`/`null`/`NaN` is an `Option`; `none`
  is the undefined/NaN sentinel.
-/
import Mathlib

/-- Closed enumeration of the EBML tag identities the parser dispatches on
(the decoder's tag registry is external; only these ids are consumed). -/
inductive EbmlTagId where
  | TimecodeScale
  | Timecode
  | Tracks
  | TrackEntry
  | TrackType
  | TrackNumber
  | CodecID
  | CodecPrivate
  | Name
  | Language
  | ContentEncodings
  | ContentEncoding
  | ContentCompression
  | BlockGroup
  | Block
  | BlockDuration
  | AttachedFile
  | FileName
  | FileMimeType
  | FileData
deriving DecidableEq, BEq, Repr

/-- Leaf data carried by a decoded element: a JS number or a string (byte
buffers are modelled by their decoded string, see header comment). -/
inductive EbmlData where
  | num (n : ℚ)
  | str (s : String)
deriving DecidableEq, BEq, Repr

/-- A decoded EBML element as delivered by the external `ebml-stream`
decoder: a tag id, optional leaf data, children, and — populated on
`Block` elements only — the track number, the cluster-relative timecode
and the raw payload (already decoded to a string, see header comment). -/
inductive EbmlElement where
  | mk (id : EbmlTagId) (data : Option EbmlData) (children : List EbmlElement)
      (track : ℚ) (value : ℚ) (payload : String)

/-- Tag id of an element. -/
def EbmlElement.id : EbmlElement → EbmlTagId
  | .mk i _ _ _ _ _ => i

/-- Leaf data of an element. -/
def EbmlElement.data : EbmlElement → Option EbmlData
  | .mk _ d _ _ _ _ => d

/-- Children of a composite element. -/
def EbmlElement.children : EbmlElement → List EbmlElement
  | .mk _ _ c _ _ _ => c

/-- Track number of a `Block` element. -/
def EbmlElement.track : EbmlElement → ℚ
  | .mk _ _ _ t _ _ => t

/-- Cluster-relative timecode of a `Block` element. -/
def EbmlElement.value : EbmlElement → ℚ
  | .mk _ _ _ _ v _ => v

/-- Raw payload of a `Block` element. -/
def EbmlElement.payload : EbmlElement → String
  | .mk _ _ _ _ _ p => p

/-- `chunk.Children.find(c => c.id === id)` from the source. -/
def findChild (chunk : EbmlElement) (tid : EbmlTagId) : Option EbmlElement :=
  chunk.children.find? (fun c => c.id == tid)

/-- Source `getData(chunk, id)`: data of the first child with the given
tag, `undefined` when the child is missing or carries no data. -/
def getData (chunk : EbmlElement) (tid : EbmlTagId) : Option EbmlData :=
  (findChild chunk tid).bind EbmlElement.data

/-- Numeric view of optional element data. -/
def numData : Option EbmlData → Option ℚ
  | some (.num n) => some n
  | _ => none

/-- String view of optional element data. -/
def strData : Option EbmlData → Option String
  | some (.str s) => some s
  | _ => none

/-- JS truthiness of optional element data (`undefined`, `0` and `""` are
falsy, everything else truthy). -/
def truthyData : Option EbmlData → Bool
  | none => false
  | some (.num n) => n != 0
  | some (.str s) => s != ""

/-- JS `String(x)` on element data; string data is returned as is (buffers
are modelled post-decode, numeric data never reaches this coercion with a
well-behaved decoder). -/
def strOfData : EbmlData → String
  | .str s => s
  | .num n => toString n

/-- JS `s.split(',')` on the character list: split at every comma keeping
empty fields, the empty string yielding one empty field. -/
def splitCommaChars : List Char → List (List Char)
  | [] => [[]]
  | c :: rest =>
    if c = ',' then [] :: splitCommaChars rest
    else
      match splitCommaChars rest with
      | f :: fs => (c :: f) :: fs
      | [] => [[c]]

/-- JS `parts.join(',')` on character lists. -/
def joinCommaChars : List (List Char) → List Char
  | [] => []
  | [f] => f
  | f :: g :: rest => f ++ ',' :: joinCommaChars (g :: rest)

/-- JS `s.split(',')`. -/
def jsSplitComma (s : String) : List String :=
  (splitCommaChars s.data).map List.asString

/-- JS `parts.join(',')`. -/
def jsJoinComma (l : List String) : String :=
  (joinCommaChars (l.map String.data)).asString

/-- JS `s.startsWith(pre)` (exact, case-sensitive character match). -/
def jsStartsWith (s pre : String) : Bool :=
  pre.data.isPrefixOf s.data

/-- JS `s.substring(n)`: drop the first `n` characters, the empty string
when the input is shorter. -/
def strDrop (s : String) (n : Nat) : String :=
  (s.data.drop n).asString

/-- JS `s.toLowerCase()` restricted to ASCII (codec identifiers are
ASCII). -/
def jsToLower (s : String) : String :=
  (s.data.map Char.toLower).asString

/-- JS string coercion of a possibly-undefined value: `undefined` renders
as the string `"undefined"` when concatenated. -/
def jsUndef : Option String → String
  | some s => s
  | none => "undefined"

/-- JS truncation toward zero (the rounding used by the `%` operator). -/
def jsTrunc (q : ℚ) : ℤ :=
  if 0 ≤ q then ⌊q⌋ else -⌊-q⌋

/-- JS `a % b` on numbers: truncated remainder. -/
def jsRem (a b : ℚ) : ℚ :=
  a - b * (jsTrunc (a / b) : ℚ)

/-- Source `toTimeString(ms, ass, comma)`, transcribed literally: note
that in the non-ASS branch the hour component contributes only its
padding character (`hh < 10 ? '0' : ''`) and the hour digits themselves
are never appended. -/
def toTimeString (ms : ℚ) (ass comma : Bool) : String :=
  let hh : ℤ := ⌊ms / 1000 / 3600⌋
  let mm : ℤ := ⌊jsRem (ms / 1000 / 60) 60⌋
  let ss : ℤ := ⌊jsRem (ms / 1000) 60⌋
  let ff : ℤ := ⌊if ass then jsRem ms 1000 / 10 else jsRem ms 1000⌋
  (if ass then toString hh else if hh < 10 then "0" else "") ++
  ":" ++
  (if mm < 10 then "0" else "") ++ toString mm ++
  ":" ++
  (if ss < 10 then "0" else "") ++ toString ss ++
  (if comma then "," else ".") ++
  (if ass then "" else if ff < 100 then "0" else "") ++
  (if ff < 10 then "0" else "") ++ toString ff

/-- `toTimeString` lifted to a possibly-`NaN` input: a missing block
duration propagates `NaN` through `time + duration`, every `NaN < k`
comparison is false, and each `NaN` component renders as `"NaN"` with no
padding. -/
def toTimeStringN (ms : Option ℚ) (ass comma : Bool) : String :=
  match ms with
  | some q => toTimeString q ass comma
  | none =>
    (if ass then "NaN" else "") ++ ":NaN:NaN" ++
    (if comma then "," else ".") ++ "NaN"

/-- JS addition where the right operand may be `NaN`. -/
def jsAdd (a : ℚ) (b : Option ℚ) : Option ℚ :=
  b.map (fun x => a + x)

/-- A registered subtitle track record, built from a `Tracks` entry. -/
structure Track where
  number : Option EbmlData
  language : Option EbmlData
  type : String
  name : Option String := none
  header : Option String := none
  compressed : Bool := false
deriving DecidableEq, Repr

/-- The track registry: a JS `Map` keyed by the raw `TrackNumber` data,
kept in insertion order. -/
abbrev TrackMap := List (Option EbmlData × Track)

/-- JS `Map.prototype.set`: overwrite in place when the key exists,
append otherwise. -/
def mapSet (m : TrackMap) (k : Option EbmlData) (v : Track) : TrackMap :=
  if m.any (fun p => p.1 == k) then
    m.map (fun p => if p.1 == k then (k, v) else p)
  else
    m ++ [(k, v)]

/-- JS `Map.prototype.get` (with `has` folded in: `none` when absent). -/
def mapGet (m : TrackMap) (k : Option EbmlData) : Option Track :=
  (m.find? (fun p => p.1 == k)).map Prod.snd

/-- The values of the registry in insertion order (`Array.from(map.values())`). -/
def mapValues (m : TrackMap) : List Track :=
  m.map Prod.snd

/-- Structural detection of a compressed track: the entry contains a
`ContentEncodings` child holding a `ContentEncoding` holding a
`ContentCompression` marker (the three nested `find` calls of the source,
truthiness of `find` being non-emptiness). -/
def hasCompression (entry : EbmlElement) : Bool :=
  entry.children.any (fun c =>
    c.id == .ContentEncodings &&
    c.children.any (fun cc =>
      cc.id == .ContentEncoding &&
      cc.children.any (fun ccc => ccc.id == .ContentCompression)))

/-- Processing of one `TrackEntry` child of a `Tracks` element (the loop
body of the source): skip unless the declared track type is `0x11`; read
the codec id with `getData(entry, CodecID) || ''`; skip unless it starts
with `"S_TEXT"` (exact case, no slash checked); derive `type` as
`codecID.substring(7).toLowerCase()`; copy `name` when truthy and
`header` when the codec-private element is present (a `Buffer` is always
truthy); mark compression; upsert into the registry keyed by the raw
track-number data. -/
def processTrackEntry (m : TrackMap) (entry : EbmlElement) : TrackMap :=
  if getData entry .TrackType ≠ some (.num 0x11) then m
  else
    let codecID := (strData (getData entry .CodecID)).getD ""
    if jsStartsWith codecID "S_TEXT" then
      mapSet m (getData entry .TrackNumber)
        { number := getData entry .TrackNumber
          language := getData entry .Language
          type := jsToLower (strDrop codecID 7)
          name := if truthyData (getData entry .Name) then strData (getData entry .Name) else none
          header := (getData entry .CodecPrivate).map strOfData
          compressed := hasCompression entry }
    else m

/-- Mutable state of `SubtitleParserBase`: the track registry, the
timecode scale and the current cluster base timecode (`null` initially). -/
structure ParserState where
  subtitleTracks : TrackMap
  timecodeScale : ℚ
  currentClusterTimecode : Option ℚ
deriving DecidableEq

/-- `SubtitleParserBase` constructor state: empty registry, scale `1`,
no cluster timecode yet. -/
def SubtitleParserBase.init : ParserState :=
  { subtitleTracks := [], timecodeScale := 1, currentClusterTimecode := none }

/-- An emitted subtitle cue. `duration` is `none` when the block carried
no `BlockDuration` (the JS value is `NaN`); the SSA/ASS named fields are
`none` when unassigned or assigned `undefined`. -/
structure Subtitle where
  text : String
  time : ℚ
  duration : Option ℚ
  content : String
  readOrder : Option String := none
  layer : Option String := none
  style : Option String := none
  name : Option String := none
  marginL : Option String := none
  marginR : Option String := none
  marginV : Option String := none
  effect : Option String := none
deriving DecidableEq, Repr

/-- The three output events of the parser. -/
inductive Event where
  | tracks (ts : List Track)
  | subtitle (cue : Subtitle) (trackNumber : ℚ)
  | file (filename mimetype data : Option EbmlData)
deriving DecidableEq, Repr

/-- Cue construction for a block on a registered track (the body of the
`BlockGroup` branch): decompress when the track is compressed (`f` is the
external inflate primitive at string level), compute the absolute time
`(block.value + clusterTimecode) * timecodeScale` (JS coerces a `null`
cluster timecode to `0` in `+`) and the duration `blockDuration * scale`
(`NaN`, i.e. `none`, when absent), then render per track type. For
SSA/ASS: split on `,`; assign the key list entries `1..7` starting at 2
for `ssa` and 1 for `ass`; rebuild `content` as a `Dialogue:` line with
`Marked=0` (ssa) or raw field 1 (ass), ASS-rendered absolute timestamps,
and the raw fields from 2 on rejoined; the cue text is the raw fields
from 8 on rejoined. -/
def buildCue (f : String → String) (st : ParserState) (chunk block : EbmlElement)
    (track : Track) : Subtitle :=
  let blockDuration := numData (getData chunk .BlockDuration)
  let payload := if track.compressed then f block.payload else block.payload
  let time := (block.value + st.currentClusterTimecode.getD 0) * st.timecodeScale
  let duration := blockDuration.map (fun d => d * st.timecodeScale)
  let isSSA := track.type = "ssa" ∨ track.type = "ass"
  let values := jsSplitComma payload
  let start : Nat := if track.type = "ssa" then 2 else 1
  { text := if isSSA then jsJoinComma (values.drop 8) else payload
    time := time
    duration := duration
    content :=
      if isSSA then
        "Dialogue: " ++ (if track.type = "ssa" then "Marked=0" else jsUndef values[1]?) ++
        "," ++ toTimeString time true false ++
        "," ++ toTimeStringN (jsAdd time duration) true false ++
        "," ++ jsJoinComma (values.drop 2)
      else if track.type = "utf8" then
        toTimeString time false true ++ " --> " ++ toTimeStringN (jsAdd time duration) false true ++
        "\r\n" ++ payload ++ "\r\n"
      else if track.type = "webvtt" then
        toTimeString time false false ++ " --> " ++ toTimeStringN (jsAdd time duration) false false ++
        "\r\n" ++ payload ++ "\r\n"
      else payload
    readOrder := none
    layer := if isSSA then (if start ≤ 1 then values[1]? else none) else none
    style := if isSSA then values[2]? else none
    name := if isSSA then values[3]? else none
    marginL := if isSSA then values[4]? else none
    marginR := if isSSA then values[5]? else none
    marginV := if isSSA then values[6]? else none
    effect := if isSSA then values[7]? else none }

/-- Source `parseEbmlSubtitles`, one decoded element at a time: the four
id-guarded branches in source order, threading the state and collecting
the emitted events. -/
def parseEbmlSubtitles (f : String → String) (st0 : ParserState) (chunk : EbmlElement) :
    ParserState × List Event :=
  let st1 :=
    if chunk.id = .TimecodeScale then
      match numData chunk.data with
      | some n => { st0 with timecodeScale := n / 1000000 }
      | none => st0
    else st0
  let st2 :=
    if chunk.id = .Timecode then
      match numData chunk.data with
      | some n => { st1 with currentClusterTimecode := some n }
      | none => st1
    else st1
  let res3 :=
    if chunk.id = .Tracks then
      let m := (chunk.children.filter (fun c => c.id == .TrackEntry)).foldl
        processTrackEntry st2.subtitleTracks
      ({ st2 with subtitleTracks := m }, [Event.tracks (mapValues m)])
    else (st2, [])
  let st3 := res3.1
  let evSub :=
    if chunk.id = .BlockGroup then
      match findChild chunk .Block with
      | some block =>
        match mapGet st3.subtitleTracks (some (.num block.track)) with
        | some track => [Event.subtitle (buildCue f st3 chunk block track) block.track]
        | none => []
      | none => []
    else []
  let evFile :=
    if chunk.id = .AttachedFile then
      [Event.file (getData chunk .FileName) (getData chunk .FileMimeType) (getData chunk .FileData)]
    else []
  (st3, res3.2 ++ evSub ++ evFile)

/-- State of the one-shot `SubtitleParser` variant: the base parser state
plus the ended flag set by `this.end()`; a Node writable processes no
further writes once ended, so ended state makes processing a no-op. -/
structure OneShotState where
  parser : ParserState
  ended : Bool
deriving DecidableEq

/-- One decoded element through `SubtitleParser`: the base listener runs
first, then the subclass listener ends the stream when a `Tracks` element
leaves the registry empty. -/
def SubtitleParser.processChunk (f : String → String) (st : OneShotState)
    (chunk : EbmlElement) : OneShotState × List Event :=
  if st.ended then (st, [])
  else
    let pe := parseEbmlSubtitles f st.parser chunk
    { parser := pe.1
      ended := chunk.id == .Tracks && pe.1.subtitleTracks.isEmpty }
    |> fun st' => (st', pe.2)

/-- A sequence of decoded elements through `SubtitleParser`, collecting
all emitted events. -/
def SubtitleParser.processList (f : String → String) (st : OneShotState) :
    List EbmlElement → OneShotState × List Event
  | [] => (st, [])
  | c :: cs =>
    let r := SubtitleParser.processChunk f st c
    let rest := SubtitleParser.processList f r.1 cs
    (rest.1, r.2 ++ rest.2)

/-- State of the seekable `SubtitleStream` variant: the base parser state
plus the resynchronizer flag (`unstable` is JS-falsy — `undefined` — on a
fresh instance and `true` only when attached to a prior instance). -/
structure StreamState where
  parser : ParserState
  unstable : Bool
deriving DecidableEq

/-- Fresh `SubtitleStream` (no prior instance): `this.unstable` is never
set, hence falsy. -/
def SubtitleStream.initFresh : StreamState :=
  { parser := SubtitleParserBase.init, unstable := false }

/-- `SubtitleStream` attached to a prior instance: run the base
constructor, then copy the prior registry and timecode scale — the
cluster timecode is intentionally not copied — and start unstable. -/
def SubtitleStream.initFromPrev (prev : ParserState) : StreamState :=
  let base := SubtitleParserBase.init
  { parser := { base with
      subtitleTracks := prev.subtitleTracks
      timecodeScale := prev.timecodeScale }
    unstable := true }

/-- `Math.floor(Math.log2 n)` for `n ≥ 1`, fuel-based so that it reduces
structurally (`floorLog2 0 = 0`, but the caller guards `n ≠ 0`: in JS
`log2 0 = -∞` makes the subsequent index lookup `undefined`, failing the
match). -/
def floorLog2Aux : Nat → Nat → Nat
  | _, 0 => 0
  | n, fuel + 1 => if 2 ≤ n then floorLog2Aux (n / 2) fuel + 1 else 0

/-- `Math.floor(Math.log2 n)`. -/
def floorLog2 (n : Nat) : Nat := floorLog2Aux n n

/-- The resync test of `SubtitleStream._ondata` at offset `i`: the 4-byte
cluster signature `1F 43 B6 75`, then the one-byte size descriptor `b`
encoding `len = 8 - floor(log2 b)` size bytes, then the cluster
`Timecode` leading byte `E7` right after the size field. A zero size byte
never matches (in JS the computed index is `Infinity` and the lookup is
`undefined`). -/
def clusterMatchAt (chunk : List Nat) (i : Nat) : Bool :=
  chunk[i]? == some 0x1f && chunk[i + 1]? == some 0x43 &&
  chunk[i + 2]? == some 0xb6 && chunk[i + 3]? == some 0x75 &&
  match chunk[i + 4]? with
  | some b => b != 0 && chunk[i + 4 + (8 - floorLog2 b)]? == some 0xe7
  | none => false

/-- The scan loop of `_ondata`, offsets `i` with `i < chunk.length - 12`
in order; `fuel` counts the remaining offsets. -/
def scanAux (chunk : List Nat) (i : Nat) : Nat → Option Nat
  | 0 => none
  | fuel + 1 => if clusterMatchAt chunk i then some i else scanAux chunk (i + 1) fuel

/-- First offset accepted by the scan loop (`none`: the loop fell
through). The JS loop bound `i < chunk.length - 12` gives exactly
`chunk.length - 12` candidate offsets. -/
def scanChunk (chunk : List Nat) : Option Nat :=
  scanAux chunk 0 (chunk.length - 12)

/-- `SubtitleStream._ondata` on one chunk: while unstable, scan for a
cluster boundary; on a match forward the sub-slice from the match to the
decoder and become stable, otherwise drop the chunk; while stable forward
the chunk unchanged. Returns the new state and the list of chunks handed
to `decoderWrite`. -/
def SubtitleStream.ondata (st : StreamState) (chunk : List Nat) :
    StreamState × List (List Nat) :=
  if st.unstable then
    match scanChunk chunk with
    | some i => ({ st with unstable := false }, [chunk.drop i])
    | none => (st, [])
  else (st, [chunk])

/-- `SubtitleStream.decoderWrite`: feed the external decoder, containing
any decode failure (the catch branch only logs, the decoder state is
whatever the failed call left — modelled as unchanged — and the byte
stream keeps flowing). `decode` is the external `decoder.write`. -/
def decoderWrite {D : Type} (decode : D → List Nat → Except String D) (d : D)
    (chunk : List Nat) : D :=
  match decode d chunk with
  | .ok d' => d'
  | .error _ => d

/-- A whole byte-chunk sequence through `SubtitleStream`: returns the
final stream state, the final decoder state and every chunk forwarded to
the decoder, in order. -/
def runStream {D : Type} (decode : D → List Nat → Except String D) :
    StreamState → D → List (List Nat) → StreamState × D × List (List Nat)
  | st, d, [] => (st, d, [])
  | st, d, c :: cs =>
    let r := SubtitleStream.ondata st c
    let d' := r.2.foldl (decoderWrite decode) d
    let rest := runStream decode r.1 d' cs
    (rest.1, rest.2.1, r.2 ++ rest.2.2)

/-! Concrete inputs used by witnesses and counterexamples. -/

/-- A registered ASS track, number 3. -/
def w1Track : Track :=
  { number := some (.num 3), language := none, type := "ass" }

/-- Parser state with the ASS track registered. -/
def w1St : ParserState :=
  { subtitleTracks := [(some (.num 3), w1Track)], timecodeScale := 1,
    currentClusterTimecode := none }

/-- A block on track 3 with the spec's example dialogue payload. -/
def w1Block : EbmlElement :=
  .mk .Block none [] 3 0 "0,1,Default,,0,0,0,,Hello, world"

/-- A `BlockGroup` around `w1Block`. -/
def w1Chunk : EbmlElement :=
  .mk .BlockGroup none [w1Block] 0 0 ""

/-- A `BlockGroup` around `w1Block` carrying a `BlockDuration` of 1970. -/
def w2Chunk : EbmlElement :=
  .mk .BlockGroup none [.mk .BlockDuration (some (.num 1970)) [] 0 0 "", w1Block] 0 0 ""

/-- Parser state with the ASS track registered and a cluster base of 100. -/
def w4St : ParserState :=
  { subtitleTracks := [(some (.num 3), w1Track)], timecodeScale := 2,
    currentClusterTimecode := some 100 }

/-- A well-formed subtitle `TrackEntry` with codec id `S_TEXT/ASS`. -/
def w5Entry : EbmlElement :=
  .mk .TrackEntry none
    [.mk .TrackType (some (.num 0x11)) [] 0 0 "",
     .mk .CodecID (some (.str "S_TEXT/ASS")) [] 0 0 "",
     .mk .TrackNumber (some (.num 1)) [] 0 0 ""] 0 0 ""

/-- A subtitle `TrackEntry` whose codec id `s_text/ass` differs from the
prefix only in case. -/
def c5Entry : EbmlElement :=
  .mk .TrackEntry none
    [.mk .TrackType (some (.num 0x11)) [] 0 0 "",
     .mk .CodecID (some (.str "s_text/ass")) [] 0 0 "",
     .mk .TrackNumber (some (.num 1)) [] 0 0 ""] 0 0 ""

/-- An unstable stream state over a fresh parser. -/
def c6State : StreamState :=
  { parser := SubtitleParserBase.init, unstable := true }

/-- A 12-byte chunk starting with a full cluster signature: signature
`1F 43 B6 75`, size byte `81` (one size byte), then the Timecode lead-in
byte `E7`. -/
def c6Chunk : List Nat :=
  [0x1f, 0x43, 0xb6, 0x75, 0x81, 0xe7, 0x81, 0x00, 0x00, 0x00, 0x00, 0x00]

/-- The same cluster start padded to 13 bytes, the least length the scan
loop will look at. -/
def w6Chunk : List Nat :=
  [0x1f, 0x43, 0xb6, 0x75, 0x81, 0xe7, 0x81, 0x00, 0x00, 0x00, 0x00, 0x00, 0x00]

/-- A `BlockGroup` whose block references the unregistered track 99. -/
def w7Chunk : EbmlElement :=
  .mk .BlockGroup none [.mk .Block none [] 99 0 "hello"] 0 0 ""

/-- A prior parser state with a track registry, a non-default scale and a
cluster base in progress. -/
def w8Prev : ParserState :=
  { subtitleTracks := [(some (.num 3), w1Track)], timecodeScale := 2,
    currentClusterTimecode := some 4321 }

/-- A `Tracks` element with no `TrackEntry` children. -/
def w9Chunk : EbmlElement :=
  .mk .Tracks none [] 0 0 ""

/-- A one-shot parser state that has not ended. -/
def w9St : OneShotState :=
  { parser := SubtitleParserBase.init, ended := false }

/-- An `AttachedFile` element, used to check that nothing is emitted
after the one-shot parser ends. -/
def w9Rest : EbmlElement :=
  .mk .AttachedFile none
    [.mk .FileName (some (.str "Arial.ttf")) [] 0 0 ""] 0 0 ""

/-! Helper lemmas. -/

/-- The `BlockGroup` branch: a found block on a registered track emits
exactly one subtitle cue and leaves the state unchanged. -/
theorem parse_blockGroup_emit (f : String → String) (st : ParserState)
    (chunk block : EbmlElement) (track : Track)
    (hid : chunk.id = .BlockGroup)
    (hblk : findChild chunk .Block = some block)
    (htrk : mapGet st.subtitleTracks (some (.num block.track)) = some track) :
    parseEbmlSubtitles f st chunk =
      (st, [Event.subtitle (buildCue f st chunk block track) block.track]) := by
  simp [parseEbmlSubtitles, hid, hblk, htrk]
/-- C3: evaluation of the timestamp renderer at the spec's literals. The
non-ASS outputs drop the hour digits (only the padding character is
emitted), so the code disagrees with the documented
`"00:01:47,250"` / `"00:01:47.250"`; the ASS-style literal matches. -/
theorem toTimeString_hour_digits_dropped :
    toTimeString 107250 false true = "0:01:47,250" ∧
    toTimeString 107250 false false = "0:01:47.250" ∧
    toTimeString 107250 true false = "0:01:47.25" := by
  have hA : jsRem ((107250 : ℚ) / 1000 / 60) 60 = 143 / 80 := by
    rw [jsRem, jsTrunc, if_pos (by norm_num : (0:ℚ) ≤ 107250 / 1000 / 60 / 60)]
    norm_num
  have hB : jsRem ((107250 : ℚ) / 1000) 60 = 189 / 4 := by
    rw [jsRem, jsTrunc, if_pos (by norm_num : (0:ℚ) ≤ 107250 / 1000 / 60)]
    norm_num
  have hC : jsRem (107250 : ℚ) 1000 = 250 := by
    rw [jsRem, jsTrunc, if_pos (by norm_num : (0:ℚ) ≤ 107250 / 1000)]
    norm_num
  have h1 : ⌊(107250 : ℚ) / 1000 / 3600⌋ = 0 := by norm_num
  have h2 : ⌊(143 : ℚ) / 80⌋ = 1 := by norm_num
  have h3 : ⌊(189 : ℚ) / 4⌋ = 47 := by norm_num
  have h4 : ⌊(250 : ℚ)⌋ = 250 := by norm_num
  have h5 : ⌊(250 : ℚ) / 10⌋ = 25 := by norm_num
  refine ⟨?_, ?_, ?_⟩ <;>
    · simp only [toTimeString, hA, hB, hC, h1, h2, h3, h4, h5, if_true, if_false,
        Bool.false_eq_true, Bool.true_eq_false, ite_true, ite_false]
      decide

/-- C1: for a block on a registered `ssa`/`ass` track, the cue synthesizer
splits the decoded payload on `,`, assigns the named key-list fields from
index 2 (ssa, skipping readOrder and layer) or index 1 (ass, skipping
readOrder) through index 7, and the cue text is the raw fields from index
8 on rejoined with `,`, preserving embedded commas. -/
theorem ssa_field_assignment (f : String → String) (st : ParserState)
    (chunk block : EbmlElement) (track : Track)
    (hid : chunk.id = .BlockGroup)
    (hblk : findChild chunk .Block = some block)
    (htrk : mapGet st.subtitleTracks (some (.num block.track)) = some track)
    (htype : track.type = "ssa" ∨ track.type = "ass") :
    ∃ cue,
      (parseEbmlSubtitles f st chunk).2 = [Event.subtitle cue block.track] ∧
      (let values := jsSplitComma (if track.compressed then f block.payload else block.payload)
       cue.layer = (if track.type = "ass" then values[1]? else none) ∧
       cue.style = values[2]? ∧
       cue.name = values[3]? ∧
       cue.marginL = values[4]? ∧
       cue.marginR = values[5]? ∧
       cue.marginV = values[6]? ∧
       cue.effect = values[7]? ∧
       cue.text = jsJoinComma (values.drop 8)) := by
  refine ⟨buildCue f st chunk block track, ?_, ?_⟩
  · rw [parse_blockGroup_emit f st chunk block track hid hblk htrk]
  · rcases htype with h | h <;> simp [buildCue, h]

/-- Witness for C1 at the spec's example: an ASS block with payload
`"0,1,Default,,0,0,0,,Hello, world"` on registered track 3. -/
theorem ssa_field_assignment_witness :
    ∃ cue,
      (parseEbmlSubtitles (fun s => s) w1St w1Chunk).2 = [Event.subtitle cue w1Block.track] ∧
      (let values := jsSplitComma (if w1Track.compressed then (fun s => s) w1Block.payload else w1Block.payload)
       cue.layer = (if w1Track.type = "ass" then values[1]? else none) ∧
       cue.style = values[2]? ∧
       cue.name = values[3]? ∧
       cue.marginL = values[4]? ∧
       cue.marginR = values[5]? ∧
       cue.marginV = values[6]? ∧
       cue.effect = values[7]? ∧
       cue.text = jsJoinComma (values.drop 8)) :=
  ssa_field_assignment (fun s => s) w1St w1Chunk w1Block w1Track rfl rfl rfl (Or.inr rfl)

/-- The comma split never produces an empty field list. -/
theorem splitCommaChars_ne_nil (l : List Char) : splitCommaChars l ≠ [] := by
  cases l with
  | nil => simp [splitCommaChars]
  | cons c rest =>
    simp only [splitCommaChars]
    split
    · simp
    · split <;> simp

/-- Prepending a character to the first field prepends it to the join. -/
theorem joinCommaChars_cons_cons (c : Char) (f : List Char) (fs : List (List Char)) :
    joinCommaChars ((c :: f) :: fs) = c :: joinCommaChars (f :: fs) := by
  cases fs <;> simp [joinCommaChars]

/-- Join is a left inverse of split: rejoining all split fields with `,`
reproduces the input byte for byte. -/
theorem joinCommaChars_splitCommaChars : ∀ l : List Char,
    joinCommaChars (splitCommaChars l) = l := by
  intro l
  induction l with
  | nil => rfl
  | cons c rest ih =>
    rcases hs : splitCommaChars rest with _ | ⟨f, fs⟩
    · exact absurd hs (splitCommaChars_ne_nil rest)
    · rw [hs] at ih
      by_cases hc : c = ','
      · rw [show splitCommaChars (c :: rest) = [] :: splitCommaChars rest from by
            simp [splitCommaChars, hc],
          hs,
          show joinCommaChars ([] :: f :: fs) = ',' :: joinCommaChars (f :: fs) from by
            simp [joinCommaChars],
          ih, hc]
      · rw [show splitCommaChars (c :: rest) = (c :: f) :: fs from by
            simp [splitCommaChars, hc, hs],
          joinCommaChars_cons_cons, ih]

/-- Rejoining a tail of the split fields yields a literal suffix of the
full join. -/
theorem joinCommaChars_drop_suffix : ∀ (n : Nat) (parts : List (List Char)),
    ∃ pre, joinCommaChars parts = pre ++ joinCommaChars (parts.drop n) := by
  intro n
  induction n with
  | zero => exact fun parts => ⟨[], rfl⟩
  | succ n ih =>
    intro parts
    cases parts with
    | nil => exact ⟨[], rfl⟩
    | cons f fs =>
      cases fs with
      | nil => exact ⟨f, by simp [joinCommaChars]⟩
      | cons g gs =>
        rcases ih (g :: gs) with ⟨pre, hp⟩
        exact ⟨f ++ ',' :: pre, by
          rw [joinCommaChars, hp]
          simp⟩

/-- `String.data` undoes `List.asString` elementwise on a field list. -/
theorem map_data_map_asString (parts : List (List Char)) :
    (parts.map List.asString).map String.data = parts := by
  induction parts with
  | nil => rfl
  | cons f fs ih =>
    simp only [List.map_cons, ih]
    rfl

/-- The rejoined field tail `values.slice(n).join(',')` is byte-identical
to a suffix of the source string. -/
theorem data_suffix_join_drop (s : String) (n : Nat) :
    ∃ pre, s.data = pre ++ (jsJoinComma ((jsSplitComma s).drop n)).data := by
  rcases joinCommaChars_drop_suffix n (splitCommaChars s.data) with ⟨pre, hp⟩
  refine ⟨pre, ?_⟩
  have hj : (jsJoinComma ((jsSplitComma s).drop n)).data
      = joinCommaChars ((splitCommaChars s.data).drop n) := by
    show joinCommaChars ((((splitCommaChars s.data).map List.asString).drop n).map String.data)
        = joinCommaChars ((splitCommaChars s.data).drop n)
    rw [← List.map_drop, map_data_map_asString]
  rw [hj, ← hp, joinCommaChars_splitCommaChars]

/-- C2: for a block on a registered `ssa`/`ass` track with a numeric
block duration, the cue content is the reconstructed dialogue line
`"Dialogue: " + M + "," + startTS + "," + endTS + "," + tail` with
`M = "Marked=0"` for `ssa` and the raw field at index 1 for `ass`,
ASS-style timestamps of the absolute time and time plus duration, and
`tail` the raw fields from index 2 on rejoined with `,` — a literal
(byte-identical) suffix of the decoded payload. -/
theorem dialogue_content_format (f : String → String) (st : ParserState)
    (chunk block : EbmlElement) (track : Track) (dur : ℚ) (m1 : String)
    (hid : chunk.id = .BlockGroup)
    (hblk : findChild chunk .Block = some block)
    (htrk : mapGet st.subtitleTracks (some (.num block.track)) = some track)
    (htype : track.type = "ssa" ∨ track.type = "ass")
    (hdur : numData (getData chunk .BlockDuration) = some dur)
    (hm1 : (jsSplitComma (if track.compressed then f block.payload else block.payload))[1]? = some m1) :
    ∃ cue,
      (parseEbmlSubtitles f st chunk).2 = [Event.subtitle cue block.track] ∧
      (let t := if track.compressed then f block.payload else block.payload
       cue.content =
         "Dialogue: " ++ (if track.type = "ssa" then "Marked=0" else m1) ++
         "," ++ toTimeString cue.time true false ++
         "," ++ toTimeString (cue.time + dur * st.timecodeScale) true false ++
         "," ++ jsJoinComma ((jsSplitComma t).drop 2) ∧
       ∃ pre, t.data = pre ++ (jsJoinComma ((jsSplitComma t).drop 2)).data) := by
  refine ⟨buildCue f st chunk block track, ?_, ?_, ?_⟩
  · rw [parse_blockGroup_emit f st chunk block track hid hblk htrk]
  · rcases htype with h | h <;>
      simp [buildCue, h, hdur, hm1, jsUndef, toTimeStringN, jsAdd]
  · exact data_suffix_join_drop _ 2

/-- Witness for C2: the ASS example block with a 1970 ms block duration. -/
theorem dialogue_content_format_witness :
    ∃ cue,
      (parseEbmlSubtitles (fun s => s) w1St w2Chunk).2 = [Event.subtitle cue w1Block.track] ∧
      (let t := if w1Track.compressed then (fun s => s) w1Block.payload else w1Block.payload
       cue.content =
         "Dialogue: " ++ (if w1Track.type = "ssa" then "Marked=0" else "1") ++
         "," ++ toTimeString cue.time true false ++
         "," ++ toTimeString (cue.time + 1970 * w1St.timecodeScale) true false ++
         "," ++ jsJoinComma ((jsSplitComma t).drop 2) ∧
       ∃ pre, t.data = pre ++ (jsJoinComma ((jsSplitComma t).drop 2)).data) :=
  dialogue_content_format (fun s => s) w1St w2Chunk w1Block w1Track 1970 "1"
    rfl rfl rfl (Or.inr rfl) rfl rfl

/-- C4: every emitted cue has `time = (blockRelative + clusterBase) * scale`
and `duration = blockDuration * scale` exactly; a missing `BlockDuration`
propagates as the `none` (`NaN`) sentinel instead of failing. -/
theorem cue_time_and_duration (f : String → String) (st : ParserState)
    (chunk block : EbmlElement) (track : Track) (base : ℚ)
    (hid : chunk.id = .BlockGroup)
    (hblk : findChild chunk .Block = some block)
    (htrk : mapGet st.subtitleTracks (some (.num block.track)) = some track)
    (hbase : st.currentClusterTimecode = some base) :
    ∃ cue,
      (parseEbmlSubtitles f st chunk).2 = [Event.subtitle cue block.track] ∧
      cue.time = (block.value + base) * st.timecodeScale ∧
      cue.duration = (numData (getData chunk .BlockDuration)).map
        (fun d => d * st.timecodeScale) ∧
      (numData (getData chunk .BlockDuration) = none → cue.duration = none) := by
  refine ⟨buildCue f st chunk block track, ?_, ?_, ?_, ?_⟩
  · rw [parse_blockGroup_emit f st chunk block track hid hblk htrk]
  · simp [buildCue, hbase]
  · simp [buildCue]
  · intro h
    simp [buildCue, h]

/-- Witness for C4: the ASS example block under cluster base 100 and
timecode scale 2, with a 1970-tick block duration. -/
theorem cue_time_and_duration_witness :
    ∃ cue,
      (parseEbmlSubtitles (fun s => s) w4St w2Chunk).2 = [Event.subtitle cue w1Block.track] ∧
      cue.time = (w1Block.value + 100) * w4St.timecodeScale ∧
      cue.duration = (numData (getData w2Chunk .BlockDuration)).map
        (fun d => d * w4St.timecodeScale) ∧
      (numData (getData w2Chunk .BlockDuration) = none → cue.duration = none) :=
  cue_time_and_duration (fun s => s) w4St w2Chunk w1Block w1Track 100 rfl rfl rfl rfl

/-- C5 (amended): for a `Tracks` entry with track-type `0x11` and a string
codec id, registration happens iff the codec id starts with `"S_TEXT"`
compared case-sensitively (the slash after the prefix is never checked),
and the registered type is the codec id from character 7 on, lowercased. -/
theorem codec_registration (m : TrackMap) (entry : EbmlElement) (c : String)
    (ht : getData entry .TrackType = some (.num 0x11))
    (hc : getData entry .CodecID = some (.str c)) :
    (jsStartsWith c "S_TEXT" = false → processTrackEntry m entry = m) ∧
    (jsStartsWith c "S_TEXT" = true →
      ∃ tr, processTrackEntry m entry = mapSet m (getData entry .TrackNumber) tr ∧
        tr.type = jsToLower (strDrop c 7)) := by
  constructor
  · intro hs
    simp [processTrackEntry, ht, hc, strData, hs]
  · intro hs
    refine ⟨{ number := getData entry .TrackNumber
              language := getData entry .Language
              type := jsToLower (strDrop c 7)
              name := if truthyData (getData entry .Name) then strData (getData entry .Name) else none
              header := (getData entry .CodecPrivate).map strOfData
              compressed := hasCompression entry }, ?_, rfl⟩
    simp [processTrackEntry, ht, hc, strData, hs]

/-- Counterexample to C5 as stated: the codec id `s_text/ass` matches the
prefix `S_TEXT/` case-insensitively, so per the claim the subtitle-typed
entry must be registered (as type `ass`), but the code's case-sensitive
`startsWith` rejects it and the registry stays empty. -/
theorem codec_prefix_case_counterexample :
    getData c5Entry .TrackType = some (.num 0x11) ∧
    getData c5Entry .CodecID = some (.str "s_text/ass") ∧
    processTrackEntry [] c5Entry = [] :=
  ⟨rfl, rfl, rfl⟩

/-- Witness for C5 (amended) at the well-formed codec id `S_TEXT/ASS`. -/
theorem codec_registration_witness :
    (jsStartsWith "S_TEXT/ASS" "S_TEXT" = false → processTrackEntry [] w5Entry = []) ∧
    (jsStartsWith "S_TEXT/ASS" "S_TEXT" = true →
      ∃ tr, processTrackEntry [] w5Entry = mapSet [] (getData w5Entry .TrackNumber) tr ∧
        tr.type = jsToLower (strDrop "S_TEXT/ASS" 7)) :=
  codec_registration [] w5Entry "S_TEXT/ASS" rfl rfl

/-- A successful scan returns the least offset in the scanned window that
passes the cluster test. -/
theorem scanAux_some_spec (chunk : List Nat) : ∀ (fuel i j : Nat),
    scanAux chunk i fuel = some j →
    i ≤ j ∧ j < i + fuel ∧ clusterMatchAt chunk j = true ∧
    ∀ k, i ≤ k → k < j → clusterMatchAt chunk k = false := by
  intro fuel
  induction fuel with
  | zero => intro i j h; simp [scanAux] at h
  | succ fuel ih =>
    intro i j h
    rw [scanAux] at h
    by_cases hm : clusterMatchAt chunk i
    · rw [if_pos hm] at h
      injection h with h
      subst h
      exact ⟨Nat.le_refl i, by omega, hm, fun k hk1 hk2 => absurd hk1 (by omega)⟩
    · rw [if_neg hm] at h
      rcases ih (i + 1) j h with ⟨h1, h2, h3, h4⟩
      refine ⟨by omega, by omega, h3, fun k hk1 hk2 => ?_⟩
      rcases Nat.eq_or_lt_of_le hk1 with rfl | hlt
      · exact Bool.eq_false_iff.mpr hm
      · exact h4 k (by omega) hk2

/-- A failed scan means no offset in the scanned window passes the
cluster test. -/
theorem scanAux_none_spec (chunk : List Nat) : ∀ (fuel i : Nat),
    scanAux chunk i fuel = none →
    ∀ k, i ≤ k → k < i + fuel → clusterMatchAt chunk k = false := by
  intro fuel
  induction fuel with
  | zero => intro i h k hk1 hk2; omega
  | succ fuel ih =>
    intro i h k hk1 hk2
    rw [scanAux] at h
    by_cases hm : clusterMatchAt chunk i
    · rw [if_pos hm] at h
      exact absurd h (by simp)
    · rw [if_neg hm] at h
      rcases Nat.eq_or_lt_of_le hk1 with rfl | hlt
      · exact Bool.eq_false_iff.mpr hm
      · exact ih (i + 1) h k (by omega) (by omega)

/-- C6 (amended): while unstable, the scanner examines only offsets `i`
with `i + 12 < chunk.length`; when some offset in that window passes the
cluster test it finds the least one, becomes stable and forwards exactly
the sub-slice from that offset to the decoder; when no offset in that
window passes (even if a signature sits within the last 12 bytes) the
state stays unstable and the chunk is dropped whole. -/
theorem resync_scan (st : StreamState) (chunk : List Nat)
    (hu : st.unstable = true) :
    (∀ i, scanChunk chunk = some i →
      i + 12 < chunk.length ∧ clusterMatchAt chunk i = true ∧
      (∀ j, j < i → clusterMatchAt chunk j = false) ∧
      SubtitleStream.ondata st chunk = ({ st with unstable := false }, [chunk.drop i])) ∧
    (scanChunk chunk = none →
      (∀ i, i + 12 < chunk.length → clusterMatchAt chunk i = false) ∧
      SubtitleStream.ondata st chunk = (st, [])) := by
  constructor
  · intro i h
    rcases scanAux_some_spec chunk (chunk.length - 12) 0 i h with ⟨h1, h2, h3, h4⟩
    refine ⟨by omega, h3, fun j hj => h4 j (Nat.zero_le j) hj, ?_⟩
    simp [SubtitleStream.ondata, hu, h]
  · intro h
    refine ⟨fun i hi =>
      scanAux_none_spec chunk (chunk.length - 12) 0 h i (Nat.zero_le i) (by omega), ?_⟩
    simp [SubtitleStream.ondata, hu, h]

/-- Counterexample to C6 as stated: a 12-byte chunk that begins with a
complete cluster signature, valid size byte and Timecode lead-in — the
claim says the scanner must lock on at offset 0 — but the loop bound
`i < chunk.length - 12` scans nothing, the chunk is dropped and the
state stays unstable. -/
theorem resync_scan_bound_counterexample :
    clusterMatchAt c6Chunk 0 = true ∧
    c6State.unstable = true ∧
    SubtitleStream.ondata c6State c6Chunk = (c6State, []) :=
  ⟨rfl, rfl, rfl⟩

/-- Witness for C6 (amended) on a 13-byte chunk whose cluster start at
offset 0 is inside the scanned window. -/
theorem resync_scan_witness :
    (∀ i, scanChunk w6Chunk = some i →
      i + 12 < w6Chunk.length ∧ clusterMatchAt w6Chunk i = true ∧
      (∀ j, j < i → clusterMatchAt w6Chunk j = false) ∧
      SubtitleStream.ondata c6State w6Chunk =
        ({ c6State with unstable := false }, [w6Chunk.drop i])) ∧
    (scanChunk w6Chunk = none →
      (∀ i, i + 12 < w6Chunk.length → clusterMatchAt w6Chunk i = false) ∧
      SubtitleStream.ondata c6State w6Chunk = (c6State, [])) :=
  resync_scan c6State w6Chunk rfl

/-- C7: a `BlockGroup` whose block references an unregistered track is a
complete no-op — same state, no events — and, in general, any emitted
subtitle cue carries a track number present in the registry. -/
theorem unregistered_track_no_cue :
    (∀ (f : String → String) (st : ParserState) (chunk block : EbmlElement),
      chunk.id = .BlockGroup →
      findChild chunk .Block = some block →
      mapGet st.subtitleTracks (some (.num block.track)) = none →
      parseEbmlSubtitles f st chunk = (st, [])) ∧
    (∀ (f : String → String) (st : ParserState) (chunk : EbmlElement)
      (cue : Subtitle) (tr : ℚ),
      Event.subtitle cue tr ∈ (parseEbmlSubtitles f st chunk).2 →
      (mapGet st.subtitleTracks (some (.num tr))).isSome = true) := by
  constructor
  · intro f st chunk block hid hblk htrk
    simp [parseEbmlSubtitles, hid, hblk, htrk]
  · intro f st chunk cue tr hmem
    by_cases hbg : chunk.id = .BlockGroup
    · rcases hblk : findChild chunk .Block with _ | block
      · simp [parseEbmlSubtitles, hbg, hblk] at hmem
      · rcases htrk : mapGet st.subtitleTracks (some (.num block.track)) with _ | track
        · simp [parseEbmlSubtitles, hbg, hblk, htrk] at hmem
        · simp [parseEbmlSubtitles, hbg, hblk, htrk] at hmem
          rcases hmem with ⟨hcue, htr⟩
          subst htr
          rw [htrk]
          rfl
    · by_cases htks : chunk.id = .Tracks
      · simp [parseEbmlSubtitles, htks] at hmem
      · by_cases haf : chunk.id = .AttachedFile
        · simp [parseEbmlSubtitles, haf] at hmem
        · simp [parseEbmlSubtitles, hbg, htks, haf] at hmem

/-- Witness for C7: a block on the unregistered track 99 against an empty
registry is dropped without any state change or event. -/
theorem unregistered_track_no_cue_witness :
    parseEbmlSubtitles (fun s => s) SubtitleParserBase.init w7Chunk
      = (SubtitleParserBase.init, []) :=
  unregistered_track_no_cue.1 (fun s => s) SubtitleParserBase.init w7Chunk
    (.mk .Block none [] 99 0 "hello") rfl rfl rfl

/-- Processing any non-`Timecode` element leaves the cluster base
unchanged. -/
theorem parse_preserves_cluster (f : String → String) (st : ParserState)
    (chunk : EbmlElement) (h : chunk.id ≠ .Timecode) :
    (parseEbmlSubtitles f st chunk).1.currentClusterTimecode
      = st.currentClusterTimecode := by
  by_cases h1 : chunk.id = .TimecodeScale <;>
    by_cases h3 : chunk.id = .Tracks <;>
    rcases hd : numData chunk.data with _ | n <;>
    simp [parseEbmlSubtitles, h1, h3, h, hd]

/-- C8: a `SubtitleStream` built from a prior instance copies the prior
registry and timecode scale, leaves the cluster base at its unset initial
value — and keeps it unset under any further non-`Timecode` element — and
starts unstable. -/
theorem stream_init_from_prev_spec (prev : ParserState) (f : String → String)
    (chunk : EbmlElement) (h : chunk.id ≠ EbmlTagId.Timecode) :
    (SubtitleStream.initFromPrev prev).parser.subtitleTracks = prev.subtitleTracks ∧
    (SubtitleStream.initFromPrev prev).parser.timecodeScale = prev.timecodeScale ∧
    (SubtitleStream.initFromPrev prev).parser.currentClusterTimecode = none ∧
    (SubtitleStream.initFromPrev prev).unstable = true ∧
    (parseEbmlSubtitles f (SubtitleStream.initFromPrev prev).parser chunk).1.currentClusterTimecode = none :=
  ⟨rfl, rfl, rfl, rfl, parse_preserves_cluster f _ chunk h⟩

/-- Witness for C8 at a prior state holding a registry, scale 2 and a
cluster base, with a `Tracks` element arriving after the handoff. -/
theorem stream_init_from_prev_witness :
    (SubtitleStream.initFromPrev w8Prev).parser.subtitleTracks = w8Prev.subtitleTracks ∧
    (SubtitleStream.initFromPrev w8Prev).parser.timecodeScale = w8Prev.timecodeScale ∧
    (SubtitleStream.initFromPrev w8Prev).parser.currentClusterTimecode = none ∧
    (SubtitleStream.initFromPrev w8Prev).unstable = true ∧
    (parseEbmlSubtitles (fun s => s) (SubtitleStream.initFromPrev w8Prev).parser w9Chunk).1.currentClusterTimecode = none :=
  stream_init_from_prev_spec w8Prev (fun s => s) w9Chunk (by decide)

/-- Once the one-shot parser has ended, any further elements are not
processed and emit nothing. -/
theorem processList_ended (f : String → String) (st : OneShotState)
    (h : st.ended = true) :
    ∀ rest, SubtitleParser.processList f st rest = (st, []) := by
  intro rest
  induction rest with
  | nil => rfl
  | cons c cs ih =>
    simp [SubtitleParser.processList, SubtitleParser.processChunk, h, ih]

/-- C9: when a `Tracks` element leaves the one-shot parser's registry
empty, the parser ends its own stream, and no later element is decoded or
emits any event. -/
theorem oneshot_ends_on_empty_tracks (f : String → String) (st : OneShotState)
    (chunk : EbmlElement) (rest : List EbmlElement)
    (hid : chunk.id = .Tracks)
    (hend : st.ended = false)
    (hempty : (parseEbmlSubtitles f st.parser chunk).1.subtitleTracks = []) :
    (SubtitleParser.processChunk f st chunk).1.ended = true ∧
    SubtitleParser.processList f (SubtitleParser.processChunk f st chunk).1 rest
      = ((SubtitleParser.processChunk f st chunk).1, []) := by
  have he : (SubtitleParser.processChunk f st chunk).1.ended = true := by
    simp [SubtitleParser.processChunk, hend, hid, hempty]
    rfl
  exact ⟨he, processList_ended f _ he rest⟩

/-- Witness for C9: a `Tracks` element with no subtitle entries ends the
fresh one-shot parser; a subsequent `AttachedFile` element emits nothing. -/
theorem oneshot_ends_on_empty_tracks_witness :
    (SubtitleParser.processChunk (fun s => s) w9St w9Chunk).1.ended = true ∧
    SubtitleParser.processList (fun s => s)
        (SubtitleParser.processChunk (fun s => s) w9St w9Chunk).1 [w9Rest]
      = ((SubtitleParser.processChunk (fun s => s) w9St w9Chunk).1, []) :=
  oneshot_ends_on_empty_tracks (fun s => s) w9St w9Chunk [w9Rest] rfl rfl rfl

/-- A stable stream forwards each chunk unchanged. -/
theorem ondata_stable (st : StreamState) (c : List Nat) (h : st.unstable = false) :
    SubtitleStream.ondata st c = (st, [c]) := by
  simp [SubtitleStream.ondata, h]

/-- C10: a fresh `SubtitleStream` (no prior instance) never becomes
unstable: over any chunk sequence the state stays the fresh stable state,
every chunk — no scan, no drop — is handed to `decoderWrite` in order,
and this holds for every decoder `decode`, including ones that fail on
every write, because `decoderWrite` contains decode errors instead of
propagating them. -/
theorem fresh_stream_always_stable {D : Type} (decode : D → List Nat → Except String D)
    (d : D) (chunks : List (List Nat)) :
    runStream decode SubtitleStream.initFresh d chunks
      = (SubtitleStream.initFresh, chunks.foldl (decoderWrite decode) d, chunks) := by
  induction chunks generalizing d with
  | nil => rfl
  | cons c cs ih =>
    simp [runStream, ondata_stable SubtitleStream.initFresh c rfl, ih]
